import Mathlib

/-!
Verification development for the cluster-autoscaler reconciliation engine.

The definitions below are a shallow embedding of the Go sources:
`checkWorkerNodeCanBeRemove`, the bounds-enforcement block and the
cooldown state machine of `StaticAutoscaler.RunOnce`, the young-pod
filter `filterOutYoungPods` / `allPodsAreNew`, the gRPC expander's
`BestOptions` / `transformAndSanitizeOptionsFromGRPC`, and the
`EventingScaleUpStatusProcessor.Process` event emitter.  Components
whose source is not part of the repository snapshot (the scale-up and
scale-down planners, `GetOldestCreateTime`) are modelled from the
specification and carry a doc comment saying so.

Time is modelled in nanoseconds (Go `time.Duration` units) as `Int`;
machine sizes are `Nat`.  External calls are modelled as explicit
effect lists; the provider polling loops consume a finite trace of
observed provider statuses.
-/

/-- Substring test on character lists: Go `strings.Contains` semantics. -/
def charListContains (pat : List Char) : List Char → Bool
  | [] => pat.isEmpty
  | c :: rest => pat.isPrefixOf (c :: rest) || charListContains pat rest

/-- Go `strings.Contains s pat`. -/
def goContains (s pat : String) : Bool :=
  charListContains pat.data s.data

/-- Go `strings.HasSuffix s pat`. -/
def goHasSuffix (s pat : String) : Bool :=
  pat.data.isSuffixOf s.data

/-- A pod owner reference (`metav1.OwnerReference`): controller kind and name. -/
structure OwnerRef where
  kind : String
  name : String
deriving DecidableEq

/-- A pod volume; `emptyDirPresent` models `volume.EmptyDir != nil`. -/
structure PodVolume where
  emptyDirPresent : Bool
deriving DecidableEq

/-- The parts of `apiv1.Pod` read by `checkWorkerNodeCanBeRemove`. -/
structure KPod where
  name : String
  namespaceName : String
  nodeName : String
  ownerRefs : List OwnerRef
  volumes : List PodVolume
deriving DecidableEq

/-- The loop body of `checkWorkerNodeCanBeRemove` over the cluster-wide pod
list, threading the `canBeRemove` accumulator.  `rsReplicas ns name` models
`kubeclient.AppsV1().ReplicaSets(ns).Get(name).Status.Replicas`.  The result
is `none` when the Go code would panic: a pod hosted on the target node with
an empty `OwnerReferences` slice (the code indexes `OwnerReferences[0]` after
the short-circuiting node-name test). -/
def checkPodsGo (rsReplicas : String → String → Int) (target : String) :
    List KPod → Bool → Option Bool
  | [], canBeRemove => some canBeRemove
  | p :: rest, canBeRemove =>
    if p.nodeName = target then
      match p.ownerRefs with
      | [] => none
      | r :: _ =>
        if r.kind ≠ "DaemonSet" then
          checkPodsGo rsReplicas target rest
            (if p.volumes.any (fun v => v.emptyDirPresent) then false
             else if rsReplicas p.namespaceName r.name = 1 then false
             else canBeRemove)
        else
          checkPodsGo rsReplicas target rest canBeRemove
    else
      checkPodsGo rsReplicas target rest canBeRemove

/-- `checkWorkerNodeCanBeRemove(kubeclient, workerNodeName)`: starts from
`canBeRemove := true` and scans every pod in the cluster. -/
def checkWorkerNodeCanBeRemove (rsReplicas : String → String → Int)
    (pods : List KPod) (target : String) : Option Bool :=
  checkPodsGo rsReplicas target pods true

/-- The per-pod blocking condition actually implemented by the source: the
pod is on the target node, its first owner reference exists and is not of
kind `DaemonSet`, and either the owning replica-set reports one replica or
the pod has an `EmptyDir` volume. -/
def podBlocksRemoval (rsReplicas : String → String → Int) (target : String)
    (p : KPod) : Bool :=
  decide (p.nodeName = target) &&
    (match p.ownerRefs with
     | [] => false
     | r :: _ =>
       decide (r.kind ≠ "DaemonSet") &&
         (decide (rsReplicas p.namespaceName r.name = 1)
           || p.volumes.any (fun v => v.emptyDirPresent)))

/-- The per-pod blocking condition exactly as claim C1 words it: rule (b),
the `EmptyDir` volume rule, applies regardless of the pod's owner-reference
kind. -/
def c1ClaimBlocks (rsReplicas : String → String → Int) (target : String)
    (p : KPod) : Bool :=
  decide (p.nodeName = target) &&
    ((match p.ownerRefs with
      | [] => false
      | r :: _ =>
        decide (r.kind ≠ "DaemonSet") &&
          decide (rsReplicas p.namespaceName r.name = 1))
     || p.volumes.any (fun v => v.emptyDirPresent))

/-- A pod owned by a `DaemonSet` that carries an `EmptyDir` volume and lives
on the candidate node: the concrete input separating the source's predicate
from claim C1's wording. -/
def c1DaemonSetPod : KPod :=
  ⟨"log-agent", "kube-system", "cluster-worker3",
    [⟨"DaemonSet", "log-agent-ds"⟩], [⟨true⟩]⟩

/-- A replica-count table reporting 2 replicas for every replica-set. -/
def c1ReplicaTable : String → String → Int := fun _ _ => 2

/-- A single-replica replica-set pod on the candidate node, used by the
amended C1 witness. -/
def c1WebPod : KPod :=
  ⟨"web", "default", "cluster-worker3", [⟨"ReplicaSet", "web-rs"⟩], []⟩

/-- A scale-up option as held by the expander: the node-group id plus the
node count (standing in for the rest of the `expander.Option` payload). -/
structure ExpOption where
  nodeGroupId : String
  nodeCount : Nat
deriving DecidableEq

/-- An option as it appears in the gRPC `BestOptionsResponse`. -/
structure RespOption where
  nodeGroupId : String
deriving DecidableEq

/-- Outcome of the remote `BestOptions` gRPC call: transport error or
timeout, a nil response (or nil `Options` field), or a response carrying a
list of possibly-nil options. -/
inductive GrpcOutcome where
  | transportErr
  | nilResponse
  | response (opts : List (Option RespOption))
deriving DecidableEq

/-- Lookup in `nodeGroupIDOptionMap`, the Go map built from the input
options by `populateOptionsForGRPC`; a later input option with the same
node-group id overwrites an earlier one. -/
def optionMapLookup (inputs : List ExpOption) (id : String) : Option ExpOption :=
  inputs.foldl (fun acc o => if o.nodeGroupId = id then some o else acc) none

/-- `transformAndSanitizeOptionsFromGRPC`: walk the server's options in
order, skip nil entries, drop node-group ids that do not appear among the
inputs, and replace recognized ids by the corresponding input option. -/
def transformAndSanitizeOptionsFromGRPC (respOpts : List (Option RespOption))
    (inputs : List ExpOption) : List ExpOption :=
  respOpts.filterMap (fun ro =>
    match ro with
    | none => none
    | some r => optionMapLookup inputs r.nodeGroupId)

/-- `grpcclientstrategy.BestOptions`: fail open (return the input unchanged)
when the client is unconfigured, the call fails or times out, the response
(or its options field) is nil, or nothing in the response is recognized;
otherwise return the sanitized options. -/
def bestOptions (clientConfigured : Bool) (outcome : GrpcOutcome)
    (inputs : List ExpOption) : List ExpOption :=
  if !clientConfigured then inputs
  else
    match outcome with
    | GrpcOutcome.transportErr => inputs
    | GrpcOutcome.nilResponse => inputs
    | GrpcOutcome.response respOpts =>
      let options := transformAndSanitizeOptionsFromGRPC respOpts inputs
      if options.isEmpty then inputs else options

/-- A pod as seen by `EventingScaleUpStatusProcessor.Process`: its name and
the messages of the events listed for it (`events.Items`), in order. -/
structure RPod where
  podName : String
  eventMessages : List String
deriving DecidableEq

/-- An event emitted on a pod by the scale-up status processor. -/
inductive Emitted where
  | notTriggerScaleUp (pod : String)
  | triggerScaleUp (pod : String)
deriving DecidableEq

/-- The per-pod body of `EventingScaleUpStatusProcessor.Process`: reads
`events.Items[0].Message`; `none` models the panic on an empty event list. -/
def processRemainUnschedulable (p : RPod) : Option Emitted :=
  match p.eventMessages with
  | [] => none
  | m :: _ =>
    if goContains m "Insufficient" then some (Emitted.triggerScaleUp p.podName)
    else some (Emitted.notTriggerScaleUp p.podName)

/-- `EventingScaleUpStatusProcessor.Process` over
`status.PodsRemainUnschedulable`: one event per pod, in order; `none` when
the Go code would panic on a pod with no recorded events. -/
def eventingScaleUpProcess : List RPod → Option (List Emitted)
  | [] => some []
  | p :: rest =>
    match processRemainUnschedulable p with
    | none => none
    | some e =>
      match eventingScaleUpProcess rest with
      | none => none
      | some es => some (e :: es)

/-- The event claim C8 expects for a pod, phrased from the spec: look at the
first recorded event message and emit `TriggerScaleUp` exactly when it
contains the substring `Insufficient`. -/
def expectedEvent (p : RPod) : Emitted :=
  if goContains (p.eventMessages.headD "") "Insufficient" then
    Emitted.triggerScaleUp p.podName
  else
    Emitted.notTriggerScaleUp p.podName

/-- A pod that remained unschedulable but has no recorded events: the input
on which `Process` would panic. -/
def c10EventlessPod : RPod := ⟨"orphan", []⟩

/-- Two remaining-unschedulable pods with recorded events, one lacking
resources and one not, used by the C8 witness. -/
def c8Pods : List RPod :=
  [⟨"starved", ["0/3 nodes are available: 3 Insufficient cpu."]⟩,
   ⟨"pinned", ["node(s) had taint that the pod did not tolerate"]⟩]

/-- An unschedulable pod as read by the engine's age filter: name and
creation timestamp (nanoseconds). -/
structure UPod where
  name : String
  creationTime : Int
deriving DecidableEq

/-- `filterOutYoungPods`: keep only pods strictly older than
`newPodScaleUpDelay` (Go `podAge > newPodScaleUpDelay`), preserving order. -/
def filterOutYoungPods (pods : List UPod) (now delay : Int) : List UPod :=
  pods.filter (fun p => decide (now - p.creationTime > delay))

/-- `unschedulablePodTimeBuffer = 2 * time.Second` in nanoseconds. -/
def unschedulablePodTimeBuffer : Int := 2000000000

/-- Modelled from the spec: `core_utils.GetOldestCreateTime` (its source file
is not part of the repository snapshot) returns the oldest creation time
among the pods; the helper starts from the current wall-clock time and takes
the minimum over every pod's creation timestamp. -/
def getOldestCreateTime (now : Int) (pods : List UPod) : Int :=
  pods.foldl (fun acc p => min acc p.creationTime) now

/-- `allPodsAreNew`: the oldest pod's creation time plus the two-second
unschedulable-pod buffer still lies in the future. -/
def allPodsAreNew (pods : List UPod) (now : Int) : Bool :=
  decide (getOldestCreateTime now pods + unschedulablePodTimeBuffer > now)

/-- The three-way branch of `RunOnce` on the age-filtered unschedulable
pods: no pod left, all remaining pods very new, or scale-up considered. -/
inductive SUDecision where
  | notNeeded
  | inCooldown
  | considered
deriving DecidableEq

/-- Lines 582-600 of the engine: filter out young pods, then decide. -/
def scaleUpAgeDecision (pods : List UPod) (now delay : Int) : SUDecision :=
  if (filterOutYoungPods pods now delay).length = 0 then SUDecision.notNeeded
  else if allPodsAreNew (filterOutYoungPods pods now delay) now then
    SUDecision.inCooldown
  else SUDecision.considered

/-- `workerNodeNameList`: the nodes whose name contains the substring
`worker`. -/
def workerNodeNames (nodes : List String) : List String :=
  nodes.filter (fun n => goContains n "worker")

/-- The bounds block's scale-down candidate: the last worker node whose name
ends with `"worker" + strconv.Itoa(len(workerNodeNameList))`; the empty
string when none matches (`workerNameToRemove`'s zero value). -/
def pickWorkerToRemove (workers : List String) : String :=
  workers.foldl
    (fun acc n =>
      if goHasSuffix n ("worker" ++ toString workers.length) then n else acc)
    ""

/-- One provider-status observation: the `CheckStatusCluster` and
`CheckErrorStatusCluster` readings of a polling iteration. -/
structure Poll where
  succeeded : Bool
  isErr : Bool
deriving DecidableEq

/-- External effects of one engine iteration, in order. -/
inductive Effect where
  | cleanToBeDeleted
  | cleanDeletionCandidates
  | scaleUpCall (n : Nat)
  | scaleDownCall (n : Nat)
  | sleep30
  | softTaint (node : String)
  | hardTaint (node : String)
  | statusWrite
deriving DecidableEq

/-- The retry-phase polling loop of the bounds block: sleep 30 seconds, then
check `CheckStatusCluster` only, until it reports SUCCEEDED (or the observed
trace ends). -/
def innerPollLoop : List Poll → List Effect
  | [] => []
  | p :: rest => Effect.sleep30 :: (if p.succeeded then [] else innerPollLoop rest)

/-- The main polling loop of the bounds block: sleep 30 seconds, stop on a
SUCCEEDED status, and on an ERROR status re-issue the provider request
(`retryEff`) once and fall into the retry-phase loop. -/
def boundsPollLoop (retryEff : Effect) : List Poll → List Effect
  | [] => []
  | p :: rest =>
    Effect.sleep30 ::
      (if p.succeeded then []
       else if p.isErr then retryEff :: innerPollLoop rest
       else boundsPollLoop retryEff rest)

/-- Whether the polling trace reports an ERROR status strictly before the
first SUCCEEDED status. -/
def errBeforeSucc : List Poll → Bool
  | [] => false
  | p :: rest =>
    if p.succeeded then false
    else if p.isErr then true
    else errBeforeSucc rest

/-- The engine state that survives across iterations: the three cooldown
timestamps and the one-time-cleanup flag. -/
structure EngineState where
  lastScaleUpTime : Int
  lastScaleDownDeleteTime : Int
  lastScaleDownFailTime : Int
  initialized : Bool
deriving DecidableEq

/-- Result of the scale-up planner when it is invoked. -/
inductive SUPlannerOutcome where
  | successful
  | noOptionsAvailable
  | failure
deriving DecidableEq

/-- Result of the scale-down planner's deletion attempt when some node is
eligible. -/
inductive SDAttempt where
  | deleteStarted (candidate : String) (count : Nat)
  | nothingDeleted
  | failure
deriving DecidableEq

/-- Scale-up outcome codes (`status.ScaleUpResult`). -/
inductive SUResult where
  | notTried
  | notNeeded
  | inCooldown
  | successful
  | noOptionsAvailable
  | error
deriving DecidableEq

/-- Scale-down outcome codes (`status.ScaleDownResult`). -/
inductive SDResult where
  | notTried
  | inCooldown
  | inProgress
  | nodeDeleteStarted
  | noUnneeded
  | noNodeDeleted
  | error
deriving DecidableEq

/-- The inputs of one `RunOnce` iteration: cluster observations, the
resolved configuration, and the outcomes of the external collaborators. -/
structure Env where
  nodes : List String
  minWorkers : Nat
  maxWorkers : Nat
  removable : String → Bool
  pollTrace : List Poll
  nodeList2Err : Bool
  scheduledPodsErr : Bool
  abortLoop : Bool
  daemonsetsErr : Bool
  clusterHealthy : Bool
  unschedulableListErr : Bool
  unschedulablePods : List UPod
  newPodScaleUpDelay : Int
  scaleUpOutcome : SUPlannerOutcome
  plannerRequest : Nat
  scaleDownEnabled : Bool
  pdbErr : Bool
  updateUnneededErr : Bool
  delayAfterAdd : Int
  delayAfterFailure : Int
  delayAfterDelete : Int
  deleteInProgress : Bool
  unneededNodes : List String
  sdAttempt : SDAttempt
  maxBulkSoftTaintCount : Nat

/-- What one `RunOnce` call produced: the new engine state, the external
effects in order, whether an error was returned, and the two status codes. -/
structure RunResult where
  state : EngineState
  effects : List Effect
  isErr : Bool
  scaleUpStatus : SUResult
  scaleDownStatus : SDResult
deriving DecidableEq

/-- Modelled from the spec: `ScaleDown.TryToScaleDown` (§4.6; its source
file is not part of the repository snapshot).  With no eligible unneeded
node it reports *no-unneeded* without touching the provider; otherwise it
either starts a node deletion (taint the chosen node, then issue a provider
scale-down request), reports that nothing was deleted, or fails. -/
def tryToScaleDown (env : Env) : SDResult × List Effect :=
  if env.unneededNodes.isEmpty then (SDResult.noUnneeded, [])
  else
    match env.sdAttempt with
    | SDAttempt.deleteStarted cand count =>
      (SDResult.nodeDeleteStarted,
        [Effect.hardTaint cand, Effect.scaleDownCall count])
    | SDAttempt.nothingDeleted => (SDResult.noNodeDeleted, [])
    | SDAttempt.failure => (SDResult.error, [])

/-- Modelled from the spec: `ScaleDown.SoftTaintUnneededNodes` (§4.6 step 4;
its source file is not part of the repository snapshot) applies the
deletion-candidate soft taint to up to `max_bulk_soft_taint_count` unneeded
nodes. -/
def softTaintUnneededNodes (env : Env) : List Effect :=
  (env.unneededNodes.take env.maxBulkSoftTaintCount).map Effect.softTaint

/-- The condition guarding `SoftTaintUnneededNodes` in `RunOnce`. -/
def softTaintEffectsFor (env : Env) (sdRes : SDResult) : List Effect :=
  if (sdRes = SDResult.noNodeDeleted ∨ sdRes = SDResult.noUnneeded)
      ∧ env.maxBulkSoftTaintCount ≠ 0 then
    softTaintUnneededNodes env
  else []

/-- The scale-down cooldown predicate of `RunOnce` (lines 719-722):
`disableScaleDownForLoop`, or `now` within the delay window after the last
scale-up, the last scale-down failure, or the last scale-down deletion. -/
def scaleDownCooldownFlag (env : Env) (st : EngineState) (now : Int)
    (disabled : Bool) : Bool :=
  disabled || decide (now < st.lastScaleUpTime + env.delayAfterAdd)
    || decide (now < st.lastScaleDownFailTime + env.delayAfterFailure)
    || decide (now < st.lastScaleDownDeleteTime + env.delayAfterDelete)

/-- The tail of `RunOnce`'s scale-down block: run `TryToScaleDown`, stamp
`lastScaleDownDeleteTime` on *node-delete-started*, soft-taint on
*no-nodes-deleted* / *no-unneeded* when bulk soft-taint is enabled, and on
error stamp `lastScaleDownFailTime` and return the error.  The deferred
status write runs on every path. -/
def scaleDownAttemptResult (env : Env) (st : EngineState) (now : Int)
    (suStatus : SUResult) : RunResult :=
  match tryToScaleDown env with
  | (sdRes, sdEff) =>
    if sdRes = SDResult.error then
      ⟨{ st with lastScaleDownFailTime := now },
        sdEff ++ softTaintEffectsFor env sdRes ++ [Effect.statusWrite],
        true, suStatus, sdRes⟩
    else if sdRes = SDResult.nodeDeleteStarted then
      ⟨{ st with lastScaleDownDeleteTime := now },
        sdEff ++ softTaintEffectsFor env sdRes ++ [Effect.statusWrite],
        false, suStatus, sdRes⟩
    else
      ⟨st, sdEff ++ softTaintEffectsFor env sdRes ++ [Effect.statusWrite],
        false, suStatus, sdRes⟩

/-- The scale-down block of `RunOnce` (lines 631-792): list disruption
budgets, update unneeded-node state, gate on the cooldown predicate and on
an in-progress deletion, otherwise attempt the scale-down. -/
def scaleDownPhase (env : Env) (st : EngineState) (now : Int)
    (disabled : Bool) (suStatus : SUResult) : RunResult :=
  if env.scaleDownEnabled then
    if env.pdbErr then
      ⟨st, [Effect.statusWrite], true, suStatus, SDResult.error⟩
    else if env.updateUnneededErr then
      ⟨st, [Effect.statusWrite], true, suStatus, SDResult.error⟩
    else if scaleDownCooldownFlag env st now disabled then
      ⟨st, [Effect.statusWrite], false, suStatus, SDResult.inCooldown⟩
    else if env.deleteInProgress then
      ⟨st, [Effect.statusWrite], false, suStatus, SDResult.inProgress⟩
    else scaleDownAttemptResult env st now suStatus
  else ⟨st, [Effect.statusWrite], false, suStatus, SDResult.notTried⟩

/-- The part of `RunOnce` after the deferred status write is registered
(line 441 on): health gate, unschedulable-pod listing, the age-filter
branch, the scale-up planner (modelled from the spec, §4.5: on success it
has issued one provider scale-up request), and the scale-down block. -/
def phase3 (env : Env) (st : EngineState) (now : Int) : RunResult :=
  if env.clusterHealthy = false then
    ⟨st, [Effect.statusWrite], false, SUResult.notTried, SDResult.notTried⟩
  else if env.unschedulableListErr then
    ⟨st, [Effect.statusWrite], true, SUResult.notTried, SDResult.notTried⟩
  else
    match scaleUpAgeDecision env.unschedulablePods now env.newPodScaleUpDelay with
    | SUDecision.notNeeded => scaleDownPhase env st now false SUResult.notNeeded
    | SUDecision.inCooldown => scaleDownPhase env st now true SUResult.inCooldown
    | SUDecision.considered =>
      match env.scaleUpOutcome with
      | SUPlannerOutcome.failure =>
        ⟨st, [Effect.statusWrite], true, SUResult.error, SDResult.notTried⟩
      | SUPlannerOutcome.successful =>
        ⟨{ st with lastScaleUpTime := now },
          [Effect.scaleUpCall env.plannerRequest, Effect.statusWrite],
          false, SUResult.successful, SDResult.inCooldown⟩
      | SUPlannerOutcome.noOptionsAvailable =>
        scaleDownPhase env st now false SUResult.noOptionsAvailable

/-- The part of `RunOnce` between the bounds block and the deferred status
write (lines 341-434): second node listing, scheduled-pod listing, abort
gate, daemon-set listing; these paths return before the status write is
registered, so they produce no effect at all. -/
def phase2 (env : Env) (st : EngineState) (now : Int) : RunResult :=
  if env.nodeList2Err then
    ⟨st, [], true, SUResult.notTried, SDResult.notTried⟩
  else if env.scheduledPodsErr then
    ⟨st, [], true, SUResult.notTried, SDResult.notTried⟩
  else if env.abortLoop then
    ⟨st, [], false, SUResult.notTried, SDResult.notTried⟩
  else if env.daemonsetsErr then
    ⟨st, [], true, SUResult.notTried, SDResult.notTried⟩
  else phase3 env st now

/-- `cleanUpIfRequired`: on the first invocation only, strip the
to-be-deleted taints, and also the deletion-candidate taints when bulk
soft-tainting is disabled. -/
def cleanupEffects (env : Env) (st : EngineState) : List Effect :=
  if st.initialized then []
  else if env.maxBulkSoftTaintCount = 0 then
    [Effect.cleanToBeDeleted, Effect.cleanDeletionCandidates]
  else [Effect.cleanToBeDeleted]

/-- The provider effects of the bounds block's scale-up branch: one request
of `min_workers − W` nodes, then the polling loop with the same request as
the retry. -/
def boundsScaleUpEffects (env : Env) : List Effect :=
  Effect.scaleUpCall (env.minWorkers - (workerNodeNames env.nodes).length)
    :: boundsPollLoop
        (Effect.scaleUpCall (env.minWorkers - (workerNodeNames env.nodes).length))
        env.pollTrace

/-- The provider effects of the bounds block's scale-down branch: one
request of `W − max_workers` nodes, then the polling loop with the same
request as the retry. -/
def boundsScaleDownEffects (env : Env) : List Effect :=
  Effect.scaleDownCall ((workerNodeNames env.nodes).length - env.maxWorkers)
    :: boundsPollLoop
        (Effect.scaleDownCall ((workerNodeNames env.nodes).length - env.maxWorkers))
        env.pollTrace

/-- Prefix a run result's effect list. -/
def prependEffects (eff : List Effect) (r : RunResult) : RunResult :=
  { r with effects := eff ++ r.effects }

/-- `StaticAutoscaler.RunOnce`: one-time cleanup, the bounds-enforcement
block (scale up below `min_workers`; above `max_workers` gate the
scale-down on `checkWorkerNodeCanBeRemove` — a failed check returns a no-op
before the deferred status write is registered), then the main body. -/
def runOnce (env : Env) (st : EngineState) (now : Int) : RunResult :=
  if (workerNodeNames env.nodes).length < env.minWorkers then
    prependEffects (cleanupEffects env st ++ boundsScaleUpEffects env)
      (phase2 env { st with initialized := true } now)
  else if (workerNodeNames env.nodes).length > env.maxWorkers then
    if env.removable (pickWorkerToRemove (workerNodeNames env.nodes)) then
      prependEffects (cleanupEffects env st ++ boundsScaleDownEffects env)
        (phase2 env { st with initialized := true } now)
    else
      ⟨{ st with initialized := true }, cleanupEffects env st, false,
        SUResult.notTried, SDResult.notTried⟩
  else
    prependEffects (cleanupEffects env st)
      (phase2 env { st with initialized := true } now)

/-- A quiet environment: one worker node, bounds `[1, 1]`, every listing
healthy, nothing unschedulable, nothing unneeded. -/
def baseEnv : Env :=
  { nodes := ["cluster-worker1"]
    minWorkers := 1
    maxWorkers := 1
    removable := fun _ => true
    pollTrace := []
    nodeList2Err := false
    scheduledPodsErr := false
    abortLoop := false
    daemonsetsErr := false
    clusterHealthy := true
    unschedulableListErr := false
    unschedulablePods := []
    newPodScaleUpDelay := 0
    scaleUpOutcome := SUPlannerOutcome.noOptionsAvailable
    plannerRequest := 0
    scaleDownEnabled := true
    pdbErr := false
    updateUnneededErr := false
    delayAfterAdd := 0
    delayAfterFailure := 0
    delayAfterDelete := 0
    deleteInProgress := false
    unneededNodes := []
    sdAttempt := SDAttempt.nothingDeleted
    maxBulkSoftTaintCount := 0 }

/-- An already-initialized engine state with all timestamps at zero. -/
def stZero : EngineState := ⟨0, 0, 0, true⟩

/-- C2 witness environment: three workers against `max_workers = 2`, with
the removability predicate failing on every node. -/
def c2Env : Env :=
  { baseEnv with
      nodes := ["cluster-worker1", "cluster-worker2", "cluster-worker3"]
      minWorkers := 1
      maxWorkers := 2
      removable := fun _ => false }

/-- C3 witness environment: no workers against `min_workers = 2`, with a
polling trace that reports an ERROR and then a SUCCEEDED status. -/
def c3Env : Env :=
  { baseEnv with
      nodes := []
      minWorkers := 2
      maxWorkers := 5
      pollTrace := [⟨false, true⟩, ⟨true, false⟩] }

/-- C4 witness environment: one unschedulable pod aged exactly 1 second at
`now = 2000000000`, with `new_pod_scale_up_delay = 0`. -/
def c4Env : Env :=
  { baseEnv with unschedulablePods := [⟨"young", 1000000000⟩] }

/-- C5 witness environment: a 10ns delay-after-add window, so `now = 5`
with `last_scale_up = 0` is inside the cooldown. -/
def c5Env : Env :=
  { baseEnv with delayAfterAdd := 10 }

/-- C6 counterexample environment: one old unschedulable pod and a planner
that reports a successful scale-up, so `RunOnce` stamps
`lastScaleUpTime := now`. -/
def c6Env : Env :=
  { baseEnv with
      unschedulablePods := [⟨"stuck", -10000000000⟩]
      scaleUpOutcome := SUPlannerOutcome.successful
      plannerRequest := 1 }

/-- C6 counterexample state: the stored timestamps post-date the `now` of
the next invocation. -/
def c6State : EngineState := ⟨100, 100, 100, true⟩

theorem checkPodsGo_eq (rsReplicas : String → String → Int) (target : String)
    (pods : List KPod)
    (h : ∀ p ∈ pods, p.nodeName = target → p.ownerRefs ≠ []) (acc : Bool) :
    checkPodsGo rsReplicas target pods acc =
      some (acc && !pods.any (podBlocksRemoval rsReplicas target)) := by
  induction pods generalizing acc with
  | nil => simp [checkPodsGo]
  | cons p rest ih =>
    have hrest : ∀ q ∈ rest, q.nodeName = target → q.ownerRefs ≠ [] := by
      intro q hq; exact h q (List.mem_cons_of_mem _ hq)
    by_cases hnode : p.nodeName = target
    · have href : p.ownerRefs ≠ [] := h p (List.mem_cons_self _ _) hnode
      match hr : p.ownerRefs with
      | [] => exact absurd hr href
      | r :: rs =>
        by_cases hkind : r.kind = "DaemonSet"
        · simp [checkPodsGo, hnode, hr, hkind, ih hrest,
            podBlocksRemoval, List.any_cons]
        · by_cases hvol : p.volumes.any (fun v => v.emptyDirPresent) = true
          · simp [checkPodsGo, hnode, hr, hkind, hvol, ih hrest,
              podBlocksRemoval, List.any_cons]
          · by_cases hrep : rsReplicas p.namespaceName r.name = 1
            · simp [checkPodsGo, hnode, hr, hkind, hvol, hrep, ih hrest,
                podBlocksRemoval, List.any_cons]
            · simp [checkPodsGo, hnode, hr, hkind, hvol, hrep, ih hrest,
                podBlocksRemoval, List.any_cons]
    · have hblock : podBlocksRemoval rsReplicas target p = false := by
        simp [podBlocksRemoval, hnode]
      simp [checkPodsGo, hnode, ih hrest, List.any_cons, hblock]

/-- Claim C1 (counterexample): a pod hosted on the target node that declares
an `EmptyDir` volume but whose first owner reference is of kind `DaemonSet`
satisfies the claim's blocking condition (rule (b) "regardless of the pod's
owner-reference kind"), yet `checkWorkerNodeCanBeRemove` returns `true`:
the volume rule in the source is nested inside the non-`DaemonSet` branch. -/
theorem c1_removability_counterexample :
    checkWorkerNodeCanBeRemove c1ReplicaTable [c1DaemonSetPod] "cluster-worker3"
        = some true ∧
      c1ClaimBlocks c1ReplicaTable "cluster-worker3" c1DaemonSetPod = true := by
  constructor <;> decide

/-- Claim C1 (amended): provided every pod hosted on the target node carries
at least one owner reference, `checkWorkerNodeCanBeRemove` returns a value,
and it returns `false` exactly when some pod is hosted on the target node,
its first owner reference is not of kind `DaemonSet`, and either its owning
replica-set reports `replicas == 1` or it declares an `EmptyDir` volume;
the `EmptyDir` rule applies only to pods whose first owner reference is not
of kind `DaemonSet`. -/
theorem c1_removability_amended (rsReplicas : String → String → Int)
    (pods : List KPod) (target : String)
    (h : ∀ p ∈ pods, p.nodeName = target → p.ownerRefs ≠ []) :
    ∃ b, checkWorkerNodeCanBeRemove rsReplicas pods target = some b ∧
      (b = false ↔ ∃ p ∈ pods, podBlocksRemoval rsReplicas target p = true) := by
  refine ⟨!pods.any (podBlocksRemoval rsReplicas target), ?_, ?_⟩
  · simpa [checkWorkerNodeCanBeRemove] using checkPodsGo_eq rsReplicas target pods h true
  · simp [List.any_eq_true]

/-- Claim C1 (amended, witness): the amended theorem evaluated on a concrete
pod list: a single-replica replica-set pod on the node blocks removal. -/
theorem c1_removability_amended_witness :
    ∃ b, checkWorkerNodeCanBeRemove (fun _ _ => 1) [c1WebPod] "cluster-worker3"
        = some b ∧
      (b = false ↔ ∃ p ∈ [c1WebPod],
        podBlocksRemoval (fun _ _ => 1) "cluster-worker3" p = true) :=
  c1_removability_amended (fun _ _ => 1) [c1WebPod] "cluster-worker3" (by decide)

theorem optionMapLookup_foldl_aux (id : String) (l : List ExpOption)
    (acc : Option ExpOption) (o : ExpOption)
    (h : l.foldl (fun acc x => if x.nodeGroupId = id then some x else acc) acc
      = some o) :
    (o ∈ l ∧ o.nodeGroupId = id) ∨ acc = some o := by
  induction l generalizing acc with
  | nil => exact Or.inr h
  | cons x xs ih =>
    rcases ih _ h with hxs | hx
    · exact Or.inl ⟨List.mem_cons_of_mem _ hxs.1, hxs.2⟩
    · by_cases hid : x.nodeGroupId = id
      · simp only [hid, if_pos rfl] at hx
        rcases Option.some_inj.mp hx with rfl
        exact Or.inl ⟨List.mem_cons_self _ _, hid⟩
      · simp only [if_neg hid] at hx
        exact Or.inr hx

theorem optionMapLookup_mem (inputs : List ExpOption) (id : String)
    (o : ExpOption) (h : optionMapLookup inputs id = some o) :
    o ∈ inputs ∧ o.nodeGroupId = id := by
  rcases optionMapLookup_foldl_aux id inputs none o h with hm | hne
  · exact hm
  · cases hne

theorem transformAndSanitize_mem (respOpts : List (Option RespOption))
    (inputs : List ExpOption) (o : ExpOption)
    (h : o ∈ transformAndSanitizeOptionsFromGRPC respOpts inputs) :
    o ∈ inputs := by
  rcases List.mem_filterMap.mp h with ⟨ro, _, hro⟩
  match ro with
  | none => cases hro
  | some r => exact (optionMapLookup_mem inputs r.nodeGroupId o hro).1

theorem transformAndSanitize_ids (respOpts : List (Option RespOption))
    (inputs : List ExpOption) :
    (transformAndSanitizeOptionsFromGRPC respOpts inputs).map
        (fun o => o.nodeGroupId)
      = respOpts.filterMap (fun ro =>
          match ro with
          | none => none
          | some r =>
            if (optionMapLookup inputs r.nodeGroupId).isSome then
              some r.nodeGroupId
            else none) := by
  induction respOpts with
  | nil => rfl
  | cons ro rest ih =>
    match ro with
    | none => simpa [transformAndSanitizeOptionsFromGRPC] using ih
    | some r =>
      match hl : optionMapLookup inputs r.nodeGroupId with
      | none =>
        simpa [transformAndSanitizeOptionsFromGRPC, hl] using ih
      | some o =>
        have hid := (optionMapLookup_mem inputs r.nodeGroupId o hl).2
        simpa [transformAndSanitizeOptionsFromGRPC, hl, hid] using ih

/-- Claim C7: `BestOptions` returns the input unchanged when the gRPC
client is unconfigured, when the remote call fails or times out, when the
response (or its options field) is nil, and when nothing in the response is
recognized; every returned option is drawn from the input option list; and
the sanitized options carry the recognized node-group ids in the server's
preference order. -/
theorem c7_expander_fail_open (inputs : List ExpOption) (outcome : GrpcOutcome) :
    bestOptions false outcome inputs = inputs ∧
    bestOptions true GrpcOutcome.transportErr inputs = inputs ∧
    bestOptions true GrpcOutcome.nilResponse inputs = inputs ∧
    (∀ respOpts, transformAndSanitizeOptionsFromGRPC respOpts inputs = [] →
      bestOptions true (GrpcOutcome.response respOpts) inputs = inputs) ∧
    (∀ clientConfigured, ∀ o ∈ bestOptions clientConfigured outcome inputs,
      o ∈ inputs) ∧
    (∀ respOpts,
      (transformAndSanitizeOptionsFromGRPC respOpts inputs).map
          (fun o => o.nodeGroupId)
        = respOpts.filterMap (fun ro =>
            match ro with
            | none => none
            | some r =>
              if (optionMapLookup inputs r.nodeGroupId).isSome then
                some r.nodeGroupId
              else none)) := by
  refine ⟨rfl, rfl, rfl, ?_, ?_, fun respOpts => transformAndSanitize_ids respOpts inputs⟩
  · intro respOpts hempty
    simp [bestOptions, hempty]
  · intro clientConfigured o ho
    match clientConfigured with
    | false => exact ho
    | true =>
      match outcome with
      | GrpcOutcome.transportErr => exact ho
      | GrpcOutcome.nilResponse => exact ho
      | GrpcOutcome.response respOpts =>
        simp only [bestOptions, Bool.not_true] at ho
        by_cases hvac :
            (transformAndSanitizeOptionsFromGRPC respOpts inputs).isEmpty = true
        · rw [if_neg (by simp), hvac, if_pos rfl] at ho
          exact ho
        · rw [if_neg (by simp), if_neg hvac] at ho
          exact transformAndSanitize_mem respOpts inputs o ho

/-- Claim C7 (witness): the fail-open clause evaluated concretely: with an
unconfigured client the single input option comes back unchanged. -/
theorem c7_expander_fail_open_witness :
    bestOptions false GrpcOutcome.transportErr [⟨"group-a", 2⟩] = [⟨"group-a", 2⟩] :=
  (c7_expander_fail_open [⟨"group-a", 2⟩] GrpcOutcome.transportErr).1

theorem eventingProcess_eq_map (pods : List RPod)
    (h : ∀ p ∈ pods, p.eventMessages ≠ []) :
    eventingScaleUpProcess pods = some (pods.map expectedEvent) := by
  induction pods with
  | nil => rfl
  | cons p rest ih =>
    have hp := h p (List.mem_cons_self _ _)
    have hrest : ∀ q ∈ rest, q.eventMessages ≠ [] :=
      fun q hq => h q (List.mem_cons_of_mem _ hq)
    match hm : p.eventMessages with
    | [] => exact absurd hm hp
    | m :: ms =>
      by_cases hins : goContains m "Insufficient" = true
      · simp [eventingScaleUpProcess, processRemainUnschedulable, hm, hins,
          ih hrest, expectedEvent]
      · simp [eventingScaleUpProcess, processRemainUnschedulable, hm, hins,
          ih hrest, expectedEvent]

/-- Claim C8: for every pod remaining unschedulable after a scale-up
attempt (each with at least one recorded event), the status processor emits
exactly one event per pod, in order: `TriggerScaleUp` when the pod's first
recorded event message contains the substring `Insufficient`, and
`NotTriggerScaleUp` otherwise. -/
theorem c8_eventing_one_event_per_pod (pods : List RPod)
    (h : ∀ p ∈ pods, p.eventMessages ≠ []) :
    eventingScaleUpProcess pods = some (pods.map expectedEvent) ∧
    (pods.map expectedEvent).length = pods.length :=
  ⟨eventingProcess_eq_map pods h, by simp⟩

/-- Claim C8 (witness): on a pod with an `Insufficient cpu` event and a pod
with a taint event, the processor emits `TriggerScaleUp` then
`NotTriggerScaleUp`. -/
theorem c8_eventing_one_event_per_pod_witness :
    eventingScaleUpProcess c8Pods = some (c8Pods.map expectedEvent) ∧
    (c8Pods.map expectedEvent).length = c8Pods.length :=
  c8_eventing_one_event_per_pod c8Pods (by decide)

/-- Claim C10: the processor's event loop indexes `events.Items[0]` without
an emptiness check, so in the total embedding the error (panic) branch is
reachable: it fires on a remaining-unschedulable pod with an empty event
list, and it is unreachable whenever every such pod has at least one
recorded event. -/
theorem c10_events_indexing :
    eventingScaleUpProcess [c10EventlessPod] = none ∧
    ∀ pods, (∀ p ∈ pods, p.eventMessages ≠ []) →
      (eventingScaleUpProcess pods).isSome = true := by
  refine ⟨rfl, fun pods h => ?_⟩
  rw [eventingProcess_eq_map pods h]
  rfl

/-- Claim C10 (witness): the unreachability clause applied to a concrete
pod carrying one event. -/
theorem c10_events_indexing_witness :
    (eventingScaleUpProcess [⟨"queued", ["scheduled after retry"]⟩]).isSome = true :=
  c10_events_indexing.2 [⟨"queued", ["scheduled after retry"]⟩] (by decide)

theorem engineState_set_initialized (st : EngineState) (h : st.initialized = true) :
    { st with initialized := true } = st := by
  cases st
  simp_all

theorem scaleDownAttemptResult_not_inCooldown (env : Env) (st : EngineState)
    (now : Int) (su : SUResult) :
    (scaleDownAttemptResult env st now su).scaleDownStatus ≠ SDResult.inCooldown := by
  unfold scaleDownAttemptResult tryToScaleDown
  split
  next sdRes sdEff heq =>
    split at heq
    · cases heq
      simp
    · split at heq <;> (cases heq; simp)

theorem scaleDownPhase_steady (env : Env) (st : EngineState) (now : Int)
    (disabled : Bool) (su : SUResult) (h : env.unneededNodes = []) :
    (scaleDownPhase env st now disabled su).effects = [Effect.statusWrite] ∧
    (scaleDownPhase env st now disabled su).state = st := by
  unfold scaleDownPhase scaleDownAttemptResult tryToScaleDown softTaintEffectsFor
    softTaintUnneededNodes
  simp only [h, List.isEmpty_nil, if_true, List.take_nil, List.map_nil]
  split
  · split
    · simp
    · split
      · simp
      · split
        · simp
        · split <;> simp
  · simp

theorem phase3_steady (env : Env) (st : EngineState) (now : Int)
    (hpods : env.unschedulablePods = []) (hunneeded : env.unneededNodes = []) :
    (phase3 env st now).effects = [Effect.statusWrite] ∧
    (phase3 env st now).state = st := by
  unfold phase3
  split
  · simp
  · split
    · simp
    · have hdec : scaleUpAgeDecision env.unschedulablePods now env.newPodScaleUpDelay
          = SUDecision.notNeeded := by
        simp [scaleUpAgeDecision, filterOutYoungPods, hpods]
      rw [hdec]
      exact scaleDownPhase_steady env st now false SUResult.notNeeded hunneeded

theorem phase2_steady (env : Env) (st : EngineState) (now : Int)
    (hpods : env.unschedulablePods = []) (hunneeded : env.unneededNodes = []) :
    (∀ e ∈ (phase2 env st now).effects, e = Effect.statusWrite) ∧
    (phase2 env st now).state = st := by
  unfold phase2
  split
  · simp
  · split
    · simp
    · split
      · simp
      · split
        · simp
        · rcases phase3_steady env st now hpods hunneeded with ⟨heff, hst⟩
          refine ⟨?_, hst⟩
          intro e he
          rw [heff] at he
          simpa using he

theorem scaleDownAttemptResult_ts (env : Env) (st : EngineState) (now : Int)
    (su : SUResult) :
    (scaleDownAttemptResult env st now su).state.lastScaleUpTime
        = st.lastScaleUpTime ∧
    ((scaleDownAttemptResult env st now su).state.lastScaleDownDeleteTime
        = st.lastScaleDownDeleteTime ∨
      (scaleDownAttemptResult env st now su).state.lastScaleDownDeleteTime = now) ∧
    ((scaleDownAttemptResult env st now su).state.lastScaleDownFailTime
        = st.lastScaleDownFailTime ∨
      (scaleDownAttemptResult env st now su).state.lastScaleDownFailTime = now) := by
  unfold scaleDownAttemptResult
  split
  next sdRes sdEff heq =>
    split
    · simp
    · split <;> simp

theorem scaleDownPhase_ts (env : Env) (st : EngineState) (now : Int)
    (disabled : Bool) (su : SUResult) :
    (scaleDownPhase env st now disabled su).state.lastScaleUpTime
        = st.lastScaleUpTime ∧
    ((scaleDownPhase env st now disabled su).state.lastScaleDownDeleteTime
        = st.lastScaleDownDeleteTime ∨
      (scaleDownPhase env st now disabled su).state.lastScaleDownDeleteTime = now) ∧
    ((scaleDownPhase env st now disabled su).state.lastScaleDownFailTime
        = st.lastScaleDownFailTime ∨
      (scaleDownPhase env st now disabled su).state.lastScaleDownFailTime = now) := by
  unfold scaleDownPhase
  split
  · split
    · simp
    · split
      · simp
      · split
        · simp
        · split
          · simp
          · exact scaleDownAttemptResult_ts env st now su
  · simp

theorem phase3_ts (env : Env) (st : EngineState) (now : Int) :
    ((phase3 env st now).state.lastScaleUpTime = st.lastScaleUpTime ∨
      (phase3 env st now).state.lastScaleUpTime = now) ∧
    ((phase3 env st now).state.lastScaleDownDeleteTime
        = st.lastScaleDownDeleteTime ∨
      (phase3 env st now).state.lastScaleDownDeleteTime = now) ∧
    ((phase3 env st now).state.lastScaleDownFailTime
        = st.lastScaleDownFailTime ∨
      (phase3 env st now).state.lastScaleDownFailTime = now) := by
  unfold phase3
  split
  · simp
  · split
    · simp
    · split
      · rcases scaleDownPhase_ts env st now false SUResult.notNeeded with ⟨h1, h2, h3⟩
        exact ⟨Or.inl h1, h2, h3⟩
      · rcases scaleDownPhase_ts env st now true SUResult.inCooldown with ⟨h1, h2, h3⟩
        exact ⟨Or.inl h1, h2, h3⟩
      · split
        · simp
        · simp
        · rcases scaleDownPhase_ts env st now false SUResult.noOptionsAvailable with ⟨h1, h2, h3⟩
          exact ⟨Or.inl h1, h2, h3⟩

theorem phase2_ts (env : Env) (st : EngineState) (now : Int) :
    ((phase2 env st now).state.lastScaleUpTime = st.lastScaleUpTime ∨
      (phase2 env st now).state.lastScaleUpTime = now) ∧
    ((phase2 env st now).state.lastScaleDownDeleteTime
        = st.lastScaleDownDeleteTime ∨
      (phase2 env st now).state.lastScaleDownDeleteTime = now) ∧
    ((phase2 env st now).state.lastScaleDownFailTime
        = st.lastScaleDownFailTime ∨
      (phase2 env st now).state.lastScaleDownFailTime = now) := by
  unfold phase2
  split
  · simp
  · split
    · simp
    · split
      · simp
      · split
        · simp
        · exact phase3_ts env st now

theorem runOnce_ts (env : Env) (st : EngineState) (now : Int) :
    ((runOnce env st now).state.lastScaleUpTime = st.lastScaleUpTime ∨
      (runOnce env st now).state.lastScaleUpTime = now) ∧
    ((runOnce env st now).state.lastScaleDownDeleteTime
        = st.lastScaleDownDeleteTime ∨
      (runOnce env st now).state.lastScaleDownDeleteTime = now) ∧
    ((runOnce env st now).state.lastScaleDownFailTime
        = st.lastScaleDownFailTime ∨
      (runOnce env st now).state.lastScaleDownFailTime = now) := by
  unfold runOnce prependEffects
  have h2 := phase2_ts env { st with initialized := true } now
  simp only at h2
  split
  · simpa using h2
  · split
    · split
      · simpa using h2
      · simp
    · simpa using h2

theorem innerPollLoop_mem (tr : List Poll) :
    ∀ e ∈ innerPollLoop tr, e = Effect.sleep30 := by
  induction tr with
  | nil => intro e he; cases he
  | cons p rest ih =>
    intro e he
    unfold innerPollLoop at he
    rcases List.mem_cons.mp he with h | h
    · exact h
    · split at h
      · cases h
      · exact ih e h

theorem boundsPollLoop_mem (retryEff : Effect) (tr : List Poll) :
    ∀ e ∈ boundsPollLoop retryEff tr, e = Effect.sleep30 ∨ e = retryEff := by
  induction tr with
  | nil => intro e he; cases he
  | cons p rest ih =>
    intro e he
    unfold boundsPollLoop at he
    rcases List.mem_cons.mp he with h | h
    · exact Or.inl h
    · split at h
      · cases h
      · split at h
        · rcases List.mem_cons.mp h with h2 | h2
          · exact Or.inr h2
          · exact Or.inl (innerPollLoop_mem rest e h2)
        · exact ih e h

theorem innerPollLoop_count (retryEff : Effect) (h : retryEff ≠ Effect.sleep30)
    (tr : List Poll) : (innerPollLoop tr).count retryEff = 0 := by
  refine List.count_eq_zero.mpr (fun hmem => h ?_)
  exact innerPollLoop_mem tr retryEff hmem

theorem boundsPollLoop_count (retryEff : Effect) (h : retryEff ≠ Effect.sleep30)
    (tr : List Poll) :
    (boundsPollLoop retryEff tr).count retryEff
      = if errBeforeSucc tr then 1 else 0 := by
  induction tr with
  | nil => simp [boundsPollLoop, errBeforeSucc]
  | cons p rest ih =>
    unfold boundsPollLoop errBeforeSucc
    by_cases hs : p.succeeded = true
    · simp [hs, List.count_cons, h]
    · by_cases he : p.isErr = true
      · simp [hs, he, List.count_cons, h, innerPollLoop_count retryEff h rest]
      · simpa [hs, he, List.count_cons, h] using ih

theorem foldl_pick_of_none (p : String → Bool) (l : List String) (acc : String)
    (h : ∀ x ∈ l, p x = false) :
    l.foldl (fun a n => if p n then n else a) acc = acc := by
  induction l generalizing acc with
  | nil => rfl
  | cons x xs ih =>
    have hx : p x = false := h x (List.mem_cons_self _ _)
    have hxs : ∀ y ∈ xs, p y = false := fun y hy => h y (List.mem_cons_of_mem _ hy)
    simp only [List.foldl_cons, hx, Bool.false_eq_true, if_false]
    exact ih acc hxs

theorem foldl_pick_mem (p : String → Bool) (l : List String) (acc : String)
    (h : ∃ x ∈ l, p x = true) :
    l.foldl (fun a n => if p n then n else a) acc ∈ l ∧
      p (l.foldl (fun a n => if p n then n else a) acc) = true := by
  induction l generalizing acc with
  | nil => rcases h with ⟨x, hx, _⟩; cases hx
  | cons x xs ih =>
    by_cases hxs : ∃ y ∈ xs, p y = true
    · rcases ih acc hxs with ⟨hmem, hp⟩
      rcases ih (if p x then x else acc) hxs with ⟨hmem2, hp2⟩
      exact ⟨List.mem_cons_of_mem _ hmem2, hp2⟩
    · push_neg at hxs
      have hxs2 : ∀ y ∈ xs, p y = false := by
        intro y hy
        rcases Bool.eq_false_or_eq_true (p y) with ht | hf
        · exact absurd ht (hxs y hy)
        · exact hf
      rcases h with ⟨x0, hx0mem, hx0⟩
      rcases List.mem_cons.mp hx0mem with rfl | hx0xs
      · simp only [List.foldl_cons, hx0, if_true]
        rw [foldl_pick_of_none p xs x0 hxs2]
        exact ⟨List.mem_cons_self _ _, hx0⟩
      · exact absurd hx0 (by simp [hxs2 x0 hx0xs])

theorem pickWorkerToRemove_spec (workers : List String)
    (h : ∃ nm ∈ workers,
      goHasSuffix nm ("worker" ++ toString workers.length) = true) :
    pickWorkerToRemove workers ∈ workers ∧
      goHasSuffix (pickWorkerToRemove workers)
        ("worker" ++ toString workers.length) = true :=
  foldl_pick_mem
    (fun n => goHasSuffix n ("worker" ++ toString workers.length)) workers "" h

theorem foldl_min_gt (l : List UPod) (a c : Int) :
    (l.foldl (fun acc p => min acc p.creationTime) a > c) ↔
      (a > c ∧ ∀ p ∈ l, p.creationTime > c) := by
  induction l generalizing a with
  | nil => simp
  | cons q qs ih =>
    simp only [List.foldl_cons, ih (min a q.creationTime), lt_min_iff,
      List.mem_cons]
    constructor
    · rintro ⟨⟨ha, hq⟩, hqs⟩
      refine ⟨ha, ?_⟩
      rintro p (rfl | hp)
      · exact hq
      · exact hqs p hp
    · rintro ⟨ha, hall⟩
      exact ⟨⟨ha, hall q (Or.inl rfl)⟩, fun p hp => hall p (Or.inr hp)⟩

theorem allPodsAreNew_iff (pods : List UPod) (now : Int) :
    allPodsAreNew pods now = true ↔
      ∀ p ∈ pods, now - p.creationTime < unschedulablePodTimeBuffer := by
  unfold allPodsAreNew getOldestCreateTime
  rw [decide_eq_true_eq]
  have hbuf : (0 : Int) < unschedulablePodTimeBuffer := by
    unfold unschedulablePodTimeBuffer
    omega
  constructor
  · intro h p hp
    have := (foldl_min_gt pods now (now - unschedulablePodTimeBuffer)).mp (by omega)
    have := this.2 p hp
    omega
  · intro h
    have : now - unschedulablePodTimeBuffer <
        pods.foldl (fun acc p => min acc p.creationTime) now := by
      refine (foldl_min_gt pods now (now - unschedulablePodTimeBuffer)).mpr ?_
      refine ⟨by omega, fun p hp => ?_⟩
      have := h p hp
      omega
    omega

theorem scaleDownPhase_su (env : Env) (st : EngineState) (now : Int)
    (disabled : Bool) (su : SUResult) :
    (scaleDownPhase env st now disabled su).scaleUpStatus = su := by
  unfold scaleDownPhase scaleDownAttemptResult
  split
  · split
    · rfl
    · split
      · rfl
      · split
        · rfl
        · split
          · rfl
          · split
            next sdRes sdEff heq =>
              split
              · rfl
              · split <;> rfl
  · rfl

theorem scaleDownPhase_gate (env : Env) (st : EngineState) (now : Int)
    (disabled : Bool) (su : SUResult)
    (h8 : env.scaleDownEnabled = true) (h9 : env.pdbErr = false)
    (h10 : env.updateUnneededErr = false) :
    ((scaleDownPhase env st now disabled su).scaleDownStatus = SDResult.inCooldown
      ↔ scaleDownCooldownFlag env st now disabled = true) ∧
    (scaleDownCooldownFlag env st now disabled = true →
      scaleDownPhase env st now disabled su
        = ⟨st, [Effect.statusWrite], false, su, SDResult.inCooldown⟩) ∧
    (scaleDownCooldownFlag env st now disabled = false →
      env.deleteInProgress = true →
      (scaleDownPhase env st now disabled su).scaleDownStatus
        = SDResult.inProgress) := by
  unfold scaleDownPhase
  simp only [h8, h9, h10, Bool.false_eq_true, if_false, if_true]
  by_cases hcd : scaleDownCooldownFlag env st now disabled = true
  · simp [hcd]
  · have hcd2 : scaleDownCooldownFlag env st now disabled = false := by
      revert hcd
      cases scaleDownCooldownFlag env st now disabled <;> simp
    simp only [hcd2, Bool.false_eq_true, if_false]
    refine ⟨?_, fun h => h.elim, fun _ hdel => by rw [if_pos hdel]⟩
    constructor
    · intro h
      by_cases hdel : env.deleteInProgress = true
      · rw [if_pos hdel] at h
        cases h
      · rw [if_neg hdel] at h
        exact scaleDownAttemptResult_not_inCooldown env st now su h
    · intro h
      exact h.elim

theorem runOnce_to_scaleDownPhase (env : Env) (st : EngineState) (now : Int)
    (hinit : st.initialized = true)
    (hmin : env.minWorkers ≤ (workerNodeNames env.nodes).length)
    (hmax : (workerNodeNames env.nodes).length ≤ env.maxWorkers)
    (h2 : env.nodeList2Err = false) (h3 : env.scheduledPodsErr = false)
    (h4 : env.abortLoop = false) (h5 : env.daemonsetsErr = false)
    (h6 : env.clusterHealthy = true) (h7 : env.unschedulableListErr = false)
    (hdec : scaleUpAgeDecision env.unschedulablePods now env.newPodScaleUpDelay
      ≠ SUDecision.considered) :
    runOnce env st now = scaleDownPhase env st now
      (decide (scaleUpAgeDecision env.unschedulablePods now env.newPodScaleUpDelay
        = SUDecision.inCooldown))
      (if scaleUpAgeDecision env.unschedulablePods now env.newPodScaleUpDelay
          = SUDecision.inCooldown then SUResult.inCooldown
        else SUResult.notNeeded) := by
  have hset := engineState_set_initialized st hinit
  unfold runOnce prependEffects
  rw [if_neg (by omega), if_neg (by omega), hset]
  have hc : cleanupEffects env st = [] := by simp [cleanupEffects, hinit]
  rw [hc]
  unfold phase2
  simp only [h2, h3, h4, h5, Bool.false_eq_true, if_false]
  unfold phase3
  simp only [h6, h7, Bool.true_eq_false, Bool.false_eq_true, if_false]
  cases hdec2 : scaleUpAgeDecision env.unschedulablePods now env.newPodScaleUpDelay with
  | considered => exact absurd hdec2 hdec
  | notNeeded => simp [hdec2]
  | inCooldown => simp [hdec2]

/-- Claim C9: with the worker count already inside `[min_workers,
max_workers]`, no unschedulable workload and no unneeded node, `RunOnce`
(past the first-invocation cleanup) performs no mutating external effect —
no provider call, no taint change, no cooldown-timestamp change — beyond
the status write. -/
theorem c9_steady_state_frame (env : Env) (st : EngineState) (now : Int)
    (hinit : st.initialized = true)
    (hmin : env.minWorkers ≤ (workerNodeNames env.nodes).length)
    (hmax : (workerNodeNames env.nodes).length ≤ env.maxWorkers)
    (hpods : env.unschedulablePods = [])
    (hunneeded : env.unneededNodes = []) :
    (∀ e ∈ (runOnce env st now).effects, e = Effect.statusWrite) ∧
    (runOnce env st now).state = st := by
  have hset := engineState_set_initialized st hinit
  have hc : cleanupEffects env st = [] := by simp [cleanupEffects, hinit]
  rcases phase2_steady env st now hpods hunneeded with ⟨heff, hst⟩
  unfold runOnce prependEffects
  rw [if_neg (by omega), if_neg (by omega), hset, hc]
  exact ⟨by simpa using heff, by simpa using hst⟩

/-- Claim C9 (witness): the frame property evaluated on the quiet
environment with non-zero stored timestamps. -/
theorem c9_steady_state_frame_witness :
    (∀ e ∈ (runOnce baseEnv ⟨1, 2, 3, true⟩ 7).effects, e = Effect.statusWrite) ∧
    (runOnce baseEnv ⟨1, 2, 3, true⟩ 7).state = ⟨1, 2, 3, true⟩ :=
  c9_steady_state_frame baseEnv ⟨1, 2, 3, true⟩ 7 rfl (by decide) (by decide)
    rfl rfl

/-- Claim C6 (counterexample): invoked with a `now` that precedes the
stored `lastScaleUpTime`, a successful scale-up makes `RunOnce` move
`lastScaleUpTime` strictly backwards, so the timestamps are not
non-decreasing on every invocation. -/
theorem c6_cooldown_monotonicity_counterexample :
    (runOnce c6Env c6State 5).state.lastScaleUpTime
      < c6State.lastScaleUpTime := by
  decide

/-- Claim C6 (amended): within one `RunOnce` call each cooldown timestamp
is either left unchanged or set to the invocation time `now`; hence on
every return path the three timestamps are non-decreasing provided `now`
is not earlier than each stored timestamp (as holds for the wall-clock
driver loop). -/
theorem c6_cooldown_monotonicity_amended (env : Env) (st : EngineState)
    (now : Int)
    (h1 : st.lastScaleUpTime ≤ now) (h2 : st.lastScaleDownDeleteTime ≤ now)
    (h3 : st.lastScaleDownFailTime ≤ now) :
    st.lastScaleUpTime ≤ (runOnce env st now).state.lastScaleUpTime ∧
    st.lastScaleDownDeleteTime
      ≤ (runOnce env st now).state.lastScaleDownDeleteTime ∧
    st.lastScaleDownFailTime
      ≤ (runOnce env st now).state.lastScaleDownFailTime := by
  rcases runOnce_ts env st now with ⟨ha, hb, hc⟩
  refine ⟨?_, ?_, ?_⟩
  · rcases ha with h | h <;> omega
  · rcases hb with h | h <;> omega
  · rcases hc with h | h <;> omega

/-- Claim C6 (amended, witness): the amended monotonicity evaluated on the
quiet environment at `now = 0` with zero timestamps. -/
theorem c6_cooldown_monotonicity_amended_witness :
    stZero.lastScaleUpTime ≤ (runOnce baseEnv stZero 0).state.lastScaleUpTime ∧
    stZero.lastScaleDownDeleteTime
      ≤ (runOnce baseEnv stZero 0).state.lastScaleDownDeleteTime ∧
    stZero.lastScaleDownFailTime
      ≤ (runOnce baseEnv stZero 0).state.lastScaleDownFailTime :=
  c6_cooldown_monotonicity_amended baseEnv stZero 0 (by decide) (by decide)
    (by decide)

/-- Claim C2: with the worker count `W` above `max_workers` (and a sane
`min ≤ max` configuration, with some worker carrying the decimal suffix
`worker<W>`), the bounds block picks as removal candidate the (last) worker
node whose name ends in `worker<W>`; when the removability predicate fails
on it, `RunOnce` returns immediately as a no-op — no provider request, no
status write, cooldown timestamps unchanged, no error; when the predicate
passes, it first issues a provider scale-down request of exactly
`W − max_workers` nodes. -/
theorem c2_bounds_scale_down (env : Env) (st : EngineState) (now : Int)
    (hinit : st.initialized = true)
    (hminmax : env.minWorkers ≤ env.maxWorkers)
    (hover : (workerNodeNames env.nodes).length > env.maxWorkers)
    (hsfx : ∃ nm ∈ workerNodeNames env.nodes,
      goHasSuffix nm ("worker" ++ toString (workerNodeNames env.nodes).length)
        = true) :
    pickWorkerToRemove (workerNodeNames env.nodes) ∈ workerNodeNames env.nodes ∧
    goHasSuffix (pickWorkerToRemove (workerNodeNames env.nodes))
      ("worker" ++ toString (workerNodeNames env.nodes).length) = true ∧
    (env.removable (pickWorkerToRemove (workerNodeNames env.nodes)) = false →
      runOnce env st now
        = ⟨st, [], false, SUResult.notTried, SDResult.notTried⟩) ∧
    (env.removable (pickWorkerToRemove (workerNodeNames env.nodes)) = true →
      ∃ rest, (runOnce env st now).effects
        = Effect.scaleDownCall
            ((workerNodeNames env.nodes).length - env.maxWorkers) :: rest) := by
  rcases pickWorkerToRemove_spec (workerNodeNames env.nodes) hsfx with ⟨hm, hs⟩
  have hset := engineState_set_initialized st hinit
  have hc : cleanupEffects env st = [] := by simp [cleanupEffects, hinit]
  refine ⟨hm, hs, ?_, ?_⟩
  · intro hrem
    unfold runOnce
    rw [if_neg (by omega), if_pos hover, if_neg (by rw [hrem]; simp), hset, hc]
  · intro hrem
    unfold runOnce prependEffects boundsScaleDownEffects
    rw [if_neg (by omega), if_pos hover, if_pos hrem, hc]
    exact ⟨boundsPollLoop
        (Effect.scaleDownCall
          ((workerNodeNames env.nodes).length - env.maxWorkers)) env.pollTrace
        ++ (phase2 env { st with initialized := true } now).effects, by simp⟩

/-- Claim C2 (witness): three workers against `max_workers = 2` with the
predicate failing on the candidate `cluster-worker3`: the run is a no-op. -/
theorem c2_bounds_scale_down_witness :
    runOnce c2Env stZero 0
      = ⟨stZero, [], false, SUResult.notTried, SDResult.notTried⟩ :=
  (c2_bounds_scale_down c2Env stZero 0 rfl (by decide) (by decide)
    ⟨"cluster-worker3", by decide, by decide⟩).2.2.1 (by decide)

/-- Claim C3: with the worker count `W` below `min_workers`, `RunOnce`
first issues one provider scale-up request of `min_workers − W` nodes, then
runs the 30-second polling loop; within the polling segment the request is
re-issued exactly once when an ERROR status is observed before the first
SUCCEEDED status and never otherwise, and the segment consists only of
sleeps and that single retry. -/
theorem c3_bounds_scale_up (env : Env) (st : EngineState) (now : Int)
    (hinit : st.initialized = true)
    (hunder : (workerNodeNames env.nodes).length < env.minWorkers) :
    (∃ rest, (runOnce env st now).effects
      = Effect.scaleUpCall
          (env.minWorkers - (workerNodeNames env.nodes).length)
        :: (boundsPollLoop
              (Effect.scaleUpCall
                (env.minWorkers - (workerNodeNames env.nodes).length))
              env.pollTrace ++ rest)) ∧
    (boundsPollLoop
        (Effect.scaleUpCall
          (env.minWorkers - (workerNodeNames env.nodes).length))
        env.pollTrace).count
        (Effect.scaleUpCall
          (env.minWorkers - (workerNodeNames env.nodes).length))
      = (if errBeforeSucc env.pollTrace then 1 else 0) ∧
    (∀ e ∈ boundsPollLoop
        (Effect.scaleUpCall
          (env.minWorkers - (workerNodeNames env.nodes).length))
        env.pollTrace,
      e = Effect.sleep30 ∨
        e = Effect.scaleUpCall
              (env.minWorkers - (workerNodeNames env.nodes).length)) := by
  have hc : cleanupEffects env st = [] := by simp [cleanupEffects, hinit]
  refine ⟨?_, boundsPollLoop_count _ (by simp) env.pollTrace,
    boundsPollLoop_mem _ env.pollTrace⟩
  unfold runOnce prependEffects boundsScaleUpEffects
  rw [if_pos hunder, hc]
  exact ⟨(phase2 env { st with initialized := true } now).effects, by simp⟩

/-- Claim C3 (witness): the retry count evaluated on a polling trace that
reports ERROR then SUCCEEDED: the request is re-issued exactly once. -/
theorem c3_bounds_scale_up_witness :
    (boundsPollLoop
        (Effect.scaleUpCall
          (c3Env.minWorkers - (workerNodeNames c3Env.nodes).length))
        c3Env.pollTrace).count
        (Effect.scaleUpCall
          (c3Env.minWorkers - (workerNodeNames c3Env.nodes).length))
      = (if errBeforeSucc c3Env.pollTrace then 1 else 0) :=
  (c3_bounds_scale_up c3Env stZero 0 rfl (by decide)).2.1

/-- Claim C5: on an iteration that reaches the scale-down block, the
scale-down outcome is *in-cooldown* exactly when the per-loop disable flag
was set (all remaining unschedulable pods very new), or `now` lies within
the delay window after the last scale-up, the last scale-down failure, or
the last scale-down deletion; when the cooldown holds the scale-down
planner is not invoked (only unneeded state is updated: the only effect is
the status write and the engine state is unchanged); when it does not hold
but a prior deletion is in progress the outcome is *in-progress*. -/
theorem c5_scale_down_cooldown (env : Env) (st : EngineState) (now : Int)
    (hinit : st.initialized = true)
    (hmin : env.minWorkers ≤ (workerNodeNames env.nodes).length)
    (hmax : (workerNodeNames env.nodes).length ≤ env.maxWorkers)
    (h2 : env.nodeList2Err = false) (h3 : env.scheduledPodsErr = false)
    (h4 : env.abortLoop = false) (h5 : env.daemonsetsErr = false)
    (h6 : env.clusterHealthy = true) (h7 : env.unschedulableListErr = false)
    (h8 : env.scaleDownEnabled = true) (h9 : env.pdbErr = false)
    (h10 : env.updateUnneededErr = false)
    (hdec : scaleUpAgeDecision env.unschedulablePods now env.newPodScaleUpDelay
      ≠ SUDecision.considered) :
    ((runOnce env st now).scaleDownStatus = SDResult.inCooldown ↔
      (scaleUpAgeDecision env.unschedulablePods now env.newPodScaleUpDelay
          = SUDecision.inCooldown
        ∨ now < st.lastScaleUpTime + env.delayAfterAdd
        ∨ now < st.lastScaleDownFailTime + env.delayAfterFailure
        ∨ now < st.lastScaleDownDeleteTime + env.delayAfterDelete)) ∧
    ((runOnce env st now).scaleDownStatus = SDResult.inCooldown →
      (runOnce env st now).effects = [Effect.statusWrite] ∧
      (runOnce env st now).state = st) ∧
    ((runOnce env st now).scaleDownStatus ≠ SDResult.inCooldown →
      env.deleteInProgress = true →
      (runOnce env st now).scaleDownStatus = SDResult.inProgress) := by
  have hru := runOnce_to_scaleDownPhase env st now hinit hmin hmax h2 h3 h4 h5
    h6 h7 hdec
  rcases scaleDownPhase_gate env st now
      (decide (scaleUpAgeDecision env.unschedulablePods now
        env.newPodScaleUpDelay = SUDecision.inCooldown))
      (if scaleUpAgeDecision env.unschedulablePods now env.newPodScaleUpDelay
          = SUDecision.inCooldown then SUResult.inCooldown
        else SUResult.notNeeded) h8 h9 h10 with ⟨g1, g2, g3⟩
  rw [hru]
  have hflag : scaleDownCooldownFlag env st now
      (decide (scaleUpAgeDecision env.unschedulablePods now
        env.newPodScaleUpDelay = SUDecision.inCooldown)) = true ↔
      (scaleUpAgeDecision env.unschedulablePods now env.newPodScaleUpDelay
          = SUDecision.inCooldown
        ∨ now < st.lastScaleUpTime + env.delayAfterAdd
        ∨ now < st.lastScaleDownFailTime + env.delayAfterFailure
        ∨ now < st.lastScaleDownDeleteTime + env.delayAfterDelete) := by
    simp [scaleDownCooldownFlag, or_assoc]
  refine ⟨g1.trans hflag, ?_, ?_⟩
  · intro hsd
    rw [g2 (g1.mp hsd)]
    exact ⟨rfl, rfl⟩
  · intro hsd hdel
    have hf : scaleDownCooldownFlag env st now
        (decide (scaleUpAgeDecision env.unschedulablePods now
          env.newPodScaleUpDelay = SUDecision.inCooldown)) = false := by
      rcases Bool.eq_false_or_eq_true (scaleDownCooldownFlag env st now
          (decide (scaleUpAgeDecision env.unschedulablePods now
            env.newPodScaleUpDelay = SUDecision.inCooldown))) with ht | hfl
      · exact absurd (by rw [g2 ht]) hsd
      · exact hfl
    exact g3 hf hdel

/-- Claim C5 (witness): with `delay_after_add = 10` and
`last_scale_up = 0`, an invocation at `now = 5` is in the scale-down
cooldown. -/
theorem c5_scale_down_cooldown_witness :
    (runOnce c5Env stZero 5).scaleDownStatus = SDResult.inCooldown :=
  (c5_scale_down_cooldown c5Env stZero 5 rfl (by decide) (by decide) rfl rfl
    rfl rfl rfl rfl rfl rfl rfl (by decide)).1.mpr
    (Or.inr (Or.inl (by decide)))

/-- Claim C4: `RunOnce` drops unschedulable workloads younger than
`new_pod_scale_up_delay` (the filter keeps exactly those strictly older);
when nothing remains the scale-up decision is *not-needed*; when every
remaining workload is younger than the two-second unschedulable-pod buffer
(via the oldest creation time) the decision is *in-cooldown*, the run's
scale-up outcome is *in-cooldown* and scale-down is suppressed for the
iteration; a lone workload aged 1 s yields *in-cooldown* (no action) and
one aged 3 s makes scale-up considered. -/
theorem c4_age_filter_gate :
    (∀ (pods : List UPod) (now delay : Int),
      (∀ p ∈ pods, now - p.creationTime < delay →
        p ∉ filterOutYoungPods pods now delay) ∧
      (scaleUpAgeDecision pods now delay = SUDecision.notNeeded ↔
        filterOutYoungPods pods now delay = []) ∧
      (scaleUpAgeDecision pods now delay = SUDecision.inCooldown ↔
        (filterOutYoungPods pods now delay ≠ [] ∧
          ∀ p ∈ filterOutYoungPods pods now delay,
            now - p.creationTime < unschedulablePodTimeBuffer))) ∧
    (∀ (env : Env) (st : EngineState) (now : Int),
      st.initialized = true →
      env.minWorkers ≤ (workerNodeNames env.nodes).length →
      (workerNodeNames env.nodes).length ≤ env.maxWorkers →
      env.nodeList2Err = false → env.scheduledPodsErr = false →
      env.abortLoop = false → env.daemonsetsErr = false →
      env.clusterHealthy = true → env.unschedulableListErr = false →
      env.scaleDownEnabled = true → env.pdbErr = false →
      env.updateUnneededErr = false →
      scaleUpAgeDecision env.unschedulablePods now env.newPodScaleUpDelay
        = SUDecision.inCooldown →
      (runOnce env st now).scaleUpStatus = SUResult.inCooldown ∧
      (runOnce env st now).scaleDownStatus = SDResult.inCooldown) ∧
    (∀ now : Int,
      scaleUpAgeDecision [⟨"pending", now - 1000000000⟩] now 0
          = SUDecision.inCooldown ∧
      scaleUpAgeDecision [⟨"pending", now - 3000000000⟩] now 0
          = SUDecision.considered) := by
  refine ⟨?_, ?_, ?_⟩
  · intro pods now delay
    refine ⟨?_, ?_, ?_⟩
    · intro p hp hyoung hmem
      have := (List.mem_filter.mp hmem).2
      rw [decide_eq_true_eq] at this
      omega
    · by_cases hl : (filterOutYoungPods pods now delay).length = 0
      · have he : filterOutYoungPods pods now delay = [] :=
          List.length_eq_zero.mp hl
        simp [scaleUpAgeDecision, hl, he]
      · have hne : filterOutYoungPods pods now delay ≠ [] := by
          intro h
          exact hl (by rw [h]; rfl)
        by_cases hn : allPodsAreNew (filterOutYoungPods pods now delay) now = true
        · simp [scaleUpAgeDecision, hl, hn, hne]
        · simp [scaleUpAgeDecision, hl, hn, hne]
    · by_cases hl : (filterOutYoungPods pods now delay).length = 0
      · have he : filterOutYoungPods pods now delay = [] :=
          List.length_eq_zero.mp hl
        simp [scaleUpAgeDecision, hl, he]
      · have hne : filterOutYoungPods pods now delay ≠ [] := by
          intro h
          exact hl (by rw [h]; rfl)
        by_cases hn : allPodsAreNew (filterOutYoungPods pods now delay) now = true
        · rw [scaleUpAgeDecision, if_neg hl, if_pos hn]
          exact iff_of_true rfl ⟨hne, (allPodsAreNew_iff _ _).mp hn⟩
        · rw [scaleUpAgeDecision, if_neg hl, if_neg hn]
          refine iff_of_false (by simp) ?_
          rintro ⟨_, hall⟩
          exact hn ((allPodsAreNew_iff _ _).mpr hall)
  · intro env st now hinit hmin hmax h2 h3 h4 h5 h6 h7 h8 h9 h10 hdec2
    have hne : scaleUpAgeDecision env.unschedulablePods now
        env.newPodScaleUpDelay ≠ SUDecision.considered := by
      rw [hdec2]
      intro h
      cases h
    have hru := runOnce_to_scaleDownPhase env st now hinit hmin hmax h2 h3 h4
      h5 h6 h7 hne
    rw [hdec2] at hru
    simp only [decide_eq_true_eq, if_pos rfl, decide_True] at hru
    rw [hru]
    constructor
    · exact scaleDownPhase_su env st now true SUResult.inCooldown
    · exact ((scaleDownPhase_gate env st now true SUResult.inCooldown h8 h9
        h10).2.1 (by simp [scaleDownCooldownFlag])).symm ▸ rfl
  · intro now
    constructor
    · have hcond : now - (now - 1000000000) > 0 := by omega
      have hfil : filterOutYoungPods [⟨"pending", now - 1000000000⟩] now 0
          = [⟨"pending", now - 1000000000⟩] := by
        simp [filterOutYoungPods, hcond]
      have hnew : allPodsAreNew [⟨"pending", now - 1000000000⟩] now = true := by
        refine (allPodsAreNew_iff _ _).mpr ?_
        intro p hp
        rcases List.mem_singleton.mp hp with rfl
        simp only [unschedulablePodTimeBuffer]
        omega
      rw [scaleUpAgeDecision, hfil]
      rw [if_neg (by simp), if_pos hnew]
    · have hcond : now - (now - 3000000000) > 0 := by omega
      have hfil : filterOutYoungPods [⟨"pending", now - 3000000000⟩] now 0
          = [⟨"pending", now - 3000000000⟩] := by
        simp [filterOutYoungPods, hcond]
      have hnew : allPodsAreNew [⟨"pending", now - 3000000000⟩] now = false := by
        rcases Bool.eq_false_or_eq_true
            (allPodsAreNew [⟨"pending", now - 3000000000⟩] now) with ht | hf
        · exfalso
          have := (allPodsAreNew_iff _ _).mp ht ⟨"pending", now - 3000000000⟩
            (List.mem_singleton.mpr rfl)
          simp only [unschedulablePodTimeBuffer] at this
          omega
        · exact hf
      rw [scaleUpAgeDecision, hfil]
      rw [if_neg (by simp), if_neg (by simp [hnew])]

/-- Claim C4 (witness): a single unschedulable pod aged exactly one second
(at `now = 2000000000` with zero delay) puts the run in cooldown: scale-up
outcome *in-cooldown* and scale-down suppressed. -/
theorem c4_age_filter_gate_witness :
    (runOnce c4Env stZero 2000000000).scaleUpStatus = SUResult.inCooldown ∧
    (runOnce c4Env stZero 2000000000).scaleDownStatus = SDResult.inCooldown :=
  c4_age_filter_gate.2.1 c4Env stZero 2000000000 rfl (by decide) (by decide)
    rfl rfl rfl rfl rfl rfl rfl rfl rfl (by decide)
